import Mathlib

/-!
Shallow embedding of `src/add-logo.py` (rwaltr/branding): a CLI utility that
overlays a logo onto an image by delegating to ImageMagick.

Strings are embedded as `List Char` (alias `Str`).  The outside world
(filesystem, `which`, ImageMagick invocations, the temp-file name chosen by
`tempfile.NamedTemporaryFile`) is an explicit environment `Env`; every
`subprocess` / filesystem observation the script makes is recorded as an
`Event` in an ordered trace.  `sys.exit` and uncaught exceptions are modelled
by early returns carrying the process exit status.  Python float arithmetic on
the literals `0.10` and `0.02` is embedded as exact rational arithmetic
(truncation of `w/10` and `w/50`).
-/

namespace Branding

/-- Paths, argv tokens and command output are lists of characters. -/
abbrev Str := List Char

/-- Digit-run parser: `some` of the decimal value iff nonempty and all digits. -/
def pyDigits (l : Str) : Option Nat :=
  if l = [] then none
  else if l.all (fun c => c.isDigit) then
    some (l.foldl (fun acc c => 10 * acc + (c.toNat - 48)) 0)
  else none

/-- Python `int(s)` on a whitespace-free token: optional sign then decimal
digits.  (Unicode digits and `_` separators, which `identify` never emits,
are not modelled.) -/
def pyParseInt : Str → Option Int
  | [] => none
  | '+' :: ds => (pyDigits ds).map (fun n => (n : Int))
  | '-' :: ds => (pyDigits ds).map (fun n => -(n : Int))
  | ds => (pyDigits ds).map (fun n => (n : Int))

/-- `str.split()` with no argument: split on runs of whitespace, discarding
leading and trailing whitespace (so a preceding `.strip()` is a no-op). -/
def splitWsAux : Str → Str → List Str
  | [], cur => if cur = [] then [] else [cur.reverse]
  | c :: rest, cur =>
    if c.isWhitespace then
      if cur = [] then splitWsAux rest [] else cur.reverse :: splitWsAux rest []
    else splitWsAux rest (c :: cur)

def splitWs (l : Str) : List Str := splitWsAux l []

/-- Python `int(x)` applied to the exact rational `w / d` (`d > 0`):
truncation toward zero. -/
def pyTruncDivNat (w : Int) (d : Nat) : Int :=
  if 0 ≤ w then ((w.toNat / d : Nat) : Int) else -(((-w).toNat / d : Nat) : Int)

/-- Line 67: `logo_size = int(img_width * 0.10)` — the float product embedded
exactly, i.e. truncation of `img_width / 10`. -/
def logo_size (imgWidth : Int) : Int := pyTruncDivNat imgWidth 10

/-- Line 70: `margin = int(img_width * 0.02)` — truncation of `img_width / 50`. -/
def margin (imgWidth : Int) : Int := pyTruncDivNat imgWidth 50

/-- Split `l` at the LAST occurrence of `c`: `some (before, after)` with
`l = before ++ c :: after` and `c ∉ after`; `none` if `c ∉ l`. -/
def afterLast (c : Char) : Str → Option (Str × Str)
  | [] => none
  | x :: xs =>
    match afterLast c xs with
    | some p => some (x :: p.1, p.2)
    | none => if x = c then some ([], xs) else none

/-- Drop every trailing occurrence of `c`. -/
def rstrip (c : Char) (l : Str) : Str := (l.reverse.dropWhile (fun x => x = c)).reverse

/-- `pathlib.PurePosixPath`: the `(str(p.parent), p.name)` pair of a path
string — trailing slashes dropped, name is the part after the last `/`,
parent defaults to `.` (or `/` for paths directly under the root). -/
def pathParentName (p : Str) : Str × Str :=
  let q := rstrip '/' p
  if q = [] then (if p = [] then (['.'], []) else (['/'], []))
  else
    match afterLast '/' q with
    | none => (['.'], q)
    | some ba =>
      let b := rstrip '/' ba.1
      (if b = [] then ['/'] else b, ba.2)

/-- `pathlib`: `(p.stem, p.suffix)` of a file name: split at the last dot
when that dot is neither the first nor the last character of the name. -/
def stemSuffix (nm : Str) : Str × Str :=
  match afterLast '.' nm with
  | some ba => if ba.1 = [] ∨ ba.2 = [] then (nm, []) else (ba.1, '.' :: ba.2)
  | none => (nm, [])

/-- `str(Path(parent) / nm)`: `.` contributes nothing, a root parent is
already slash-terminated, anything else gets a separating `/`. -/
def joinRel (parent nm : Str) : Str :=
  if parent = ['.'] then nm
  else if parent.getLast? = some '/' then parent ++ nm
  else parent ++ '/' :: nm

/-- Lines 169-170: `path = Path(input_image)`;
`output_image = str(path.parent / (path.stem + "-branded" + path.suffix))`. -/
def deriveOutput (input : Str) : Str :=
  let pn := pathParentName input
  let ss := stemSuffix pn.2
  joinRel pn.1 (ss.1 ++ "-branded".toList ++ ss.2)

/-- The four bundled logo variants — the keys of the `LOGOS` dict (lines 22-27). -/
inductive LogoName where
  | logo
  | logooutlined
  | seal
  | sealoutlined
deriving DecidableEq, Repr

/-- Reverse lookup of a CLI token among the catalog keys (the `choices=` check). -/
def logoOfName (s : Str) : Option LogoName :=
  if s = "logo".toList then some .logo
  else if s = "logooutlined".toList then some .logooutlined
  else if s = "seal".toList then some .seal
  else if s = "sealoutlined".toList then some .sealoutlined
  else none

/-- The `LOGOS` dict values: `SCRIPT_DIR / 'vector' / '<name>.svg'`. -/
def LOGOS (scriptDir : Str) : LogoName → Str
  | .logo => scriptDir ++ "/vector/logo.svg".toList
  | .logooutlined => scriptDir ++ "/vector/logooutlined.svg".toList
  | .seal => scriptDir ++ "/vector/seal.svg".toList
  | .sealoutlined => scriptDir ++ "/vector/sealoutlined.svg".toList

/-- Line 29: `DEFAULT_LOGO = 'logo'`. -/
def DEFAULT_LOGO : LogoName := .logo

/-- The outside world as the script observes it. `identifyOut p = none`
means the dimension query exits non-zero (raising `CalledProcessError`);
`some out` is its stdout.  `rasterizeRC` / `compositeRC` are the return
codes of the two shell commands; `tmpName` is the path handed out by
`tempfile.NamedTemporaryFile`; `userHomes` backs `~user` lookup in
`os.path.expanduser`; `home` is the current user's resolved home. -/
structure Env where
  scriptDir : Str
  home : Str
  userHomes : List (Str × Str)
  fileExists : Str → Bool
  hasMagick : Bool
  hasConvert : Bool
  identifyOut : Str → Option Str
  rasterizeRC : Nat
  compositeRC : Nat
  tmpName : Str

/-- `os.path.expanduser` (posixpath): expand a leading `~` or `~user`;
on unknown user the path is returned unchanged; the substituted home is
stripped of trailing slashes and an all-empty result becomes `/`. -/
def expanduser (env : Env) : Str → Str
  | '~' :: rest =>
    let user := rest.takeWhile (fun c => c ≠ '/')
    let tail := rest.dropWhile (fun c => c ≠ '/')
    let home? := if user = [] then some env.home else List.lookup user env.userHomes
    match home? with
    | none => '~' :: rest
    | some h =>
      let r := rstrip '/' h ++ tail
      if r = [] then ['/'] else r
  | p => p

/-- One observable side effect, in program order: an `os.path.exists` /
`Path.exists` probe of the filesystem, or one delegated external command
(`which`, `identify`, the rasterize pipeline, the composite pipeline).
The rasterize event records the logo path, target size, opacity (the shell
command interpolates `opacity / 100.0`) and temp output; the composite
event records input, temp logo, margin offset and output path. -/
inductive Event where
  | checkExists (path : Str)
  | whichMagick
  | whichConvert
  | identify (path : Str)
  | rasterize (logoSvg : Str) (size : Int) (opacity : Int) (tmp : Str)
  | composite (input : Str) (tmp : Str) (marginPx : Int) (output : Str)
deriving DecidableEq, Repr

/-- Delegated external-tool commands (everything except `os.path.exists`). -/
def Event.isTool : Event → Bool
  | .checkExists _ => false
  | _ => true

def Event.isComposite : Event → Bool
  | .composite _ _ _ _ => true
  | _ => false

def Event.isRasterize : Event → Bool
  | .rasterize _ _ _ _ => true
  | _ => false

/-- Lines 32-43, `check_dependencies`: run `which magick` and `which convert`
(both, unconditionally); return the command name to use, `none` if neither
tool is present. -/
def check_dependencies (env : Env) : Option Str × List Event :=
  if ¬ env.hasMagick ∧ ¬ env.hasConvert then (none, [.whichMagick, .whichConvert])
  else
    (some (if env.hasMagick then "magick".toList else "convert".toList),
     [.whichMagick, .whichConvert])

/-- Lines 53-54: `result.stdout.strip().split()` mapped through `int` and
unpacked into exactly two values; `none` on any `ValueError`. -/
def parseDims (out : Str) : Option (Int × Int) :=
  match (splitWs out).mapM pyParseInt with
  | some [w, h] => some (w, h)
  | _ => none

/-- Lines 46-58, `get_image_dimensions`: query `identify -format "%w %h"`.
A non-zero tool exit raises `CalledProcessError`, caught and turned into
`sys.exit(1)`; a parse failure raises an uncaught `ValueError`, which also
ends the interpreter with status 1.  Both are `.error 1`; success returns
the `(width, height)` pair. -/
def get_image_dimensions (env : Env) (imagePath : Str) (magickCmd : Str) :
    Except Nat (Int × Int) × List Event :=
  match env.identifyOut imagePath with
  | none => (.error 1, [.identify imagePath])
  | some out =>
    match parseDims out with
    | some wh => (.ok wh, [.identify imagePath])
    | none => (.error 1, [.identify imagePath])

/-- Lines 84-108, the `try` body of `add_logo` after the temp file exists:
rasterize (exit 1 on failure), then composite (exit 1 on failure), then
report success.  Result: (early exit status if any, events, whether the
temp file still exists when control leaves the body — it always does,
the body never unlinks it). -/
def add_logo_try (env : Env) (input output logoSvg : Str) (opacity : Int)
    (lsize marg : Int) : Option Nat × List Event × Bool :=
  let rastEv := Event.rasterize logoSvg lsize opacity env.tmpName
  if env.rasterizeRC ≠ 0 then (some 1, [rastEv], true)
  else
    let compEv := Event.composite input env.tmpName marg output
    if env.compositeRC ≠ 0 then (some 1, [rastEv, compEv], true)
    else (none, [rastEv, compEv], true)

/-- Lines 109-111, the `finally` clause: `if os.path.exists(tmp_logo):
os.unlink(tmp_logo)`.  Python runs it on every exit from the `try` body,
including the `SystemExit` raised by `sys.exit`. -/
def runFinally (r : Option Nat × List Event × Bool) : Option Nat × List Event × Bool :=
  (r.1, r.2.1, if r.2.2 then false else r.2.2)

/-- Lines 61-111, `add_logo`: read dimensions (may exit before the temp file
is ever created), compute the geometry from the image width, create the
temp raster and run the guarded rasterize/composite steps.  Result:
(early exit status, events, whether the temp file exists at process exit). -/
def add_logo (env : Env) (input output logoSvg magickCmd : Str) (opacity : Int) :
    Option Nat × List Event × Bool :=
  match get_image_dimensions env input magickCmd with
  | (.error c, ev) => (some c, ev, false)
  | (.ok wh, ev) =>
    let r := runFinally (add_logo_try env input output logoSvg opacity
      (logo_size wh.1) (margin wh.1))
    (r.1, ev ++ r.2.1, r.2.2)

/-- argparse outcome of a failed parse: a usage error (`SystemExit(2)`) or
the auto-added help action (`SystemExit(0)`). -/
inductive PErr where
  | err
  | help
deriving DecidableEq, Repr

/-- Parser state while scanning argv: the one positional plus the three
options with their argparse defaults (lines 132-141). -/
structure RawArgs where
  input : Option Str
  logo : LogoName
  opacity : Int
  output : Option Str
deriving DecidableEq, Repr

def initRaw : RawArgs := ⟨none, DEFAULT_LOGO, 70, none⟩

/-- argparse's negative-number test: this parser has no numeric-looking
option strings, so a token matching `-<digits>` is accepted as a value. -/
def isNegNumberTok (v : Str) : Bool :=
  match v with
  | c :: ds => c = '-' ∧ ¬ ds = [] ∧ ds.all (fun x => x.isDigit)
  | [] => false

/-- A token argparse treats as an option string: starts with `-`, is not the
bare `-`, and does not look like a negative number. -/
def isOptionLike (v : Str) : Bool :=
  match v with
  | c :: _ => c = '-' ∧ ¬ v = ['-'] ∧ ¬ isNegNumberTok v
  | [] => false

/-- The argparse configuration of lines 117-147, restricted to the invocation
forms the script documents: `-h`/`--help`; `--logo`/`-l` with a value token
checked against the catalog (`choices=LOGOS.keys()`); `--opacity` with an
integer value (`type=int`); `--output`/`-o` with a value; one required
positional.  An option at end of argv or followed by an option-like token
is `expected one argument`; an unknown option or a second positional is
`unrecognized arguments`; all such usage errors exit with status 2.
(`--opt=value`, option-prefix abbreviation and `-lVALUE` bundling are not
modelled.) -/
def parseTokens : List Str → RawArgs → Except PErr RawArgs
  | [], acc => .ok acc
  | t :: rest, acc =>
    if t = "-h".toList ∨ t = "--help".toList then .error .help
    else if t = "--logo".toList ∨ t = "-l".toList then
      match rest with
      | [] => .error .err
      | v :: rest2 =>
        if isOptionLike v then .error .err
        else
          match logoOfName v with
          | some lg => parseTokens rest2 { acc with logo := lg }
          | none => .error .err
    else if t = "--opacity".toList then
      match rest with
      | [] => .error .err
      | v :: rest2 =>
        if isOptionLike v then .error .err
        else
          match pyParseInt v with
          | some n => parseTokens rest2 { acc with opacity := n }
          | none => .error .err
    else if t = "--output".toList ∨ t = "-o".toList then
      match rest with
      | [] => .error .err
      | v :: rest2 =>
        if isOptionLike v then .error .err
        else parseTokens rest2 { acc with output := some v }
    else if isOptionLike t then .error .err
    else
      match acc.input with
      | none => parseTokens rest { acc with input := some t }
      | some _ => .error .err

instance exceptDecEq {ε α : Type} [DecidableEq ε] [DecidableEq α] :
    DecidableEq (Except ε α)
  | .error e, .error f =>
    if h : e = f then .isTrue (by rw [h]) else .isFalse (by intro hh; cases hh; exact h rfl)
  | .error _, .ok _ => .isFalse (by intro h; cases h)
  | .ok _, .error _ => .isFalse (by intro h; cases h)
  | .ok a, .ok b =>
    if h : a = b then .isTrue (by rw [h]) else .isFalse (by intro hh; cases hh; exact h rfl)

/-- The parsed `args` object once `parse_args` has succeeded. -/
structure Args where
  input : Str
  logo : LogoName
  opacity : Int
  output : Option Str
deriving DecidableEq, Repr

/-- `parser.parse_args()`: scan the tokens, then require the positional. -/
def parseArgs (argv : List Str) : Except PErr Args :=
  match parseTokens argv initRaw with
  | .error e => .error e
  | .ok acc =>
    match acc.input with
    | none => .error .err
    | some i => .ok ⟨i, acc.logo, acc.opacity, acc.output⟩

/-- Lines 165-170: the output path — `--output` when given, else the
`-branded` derivation from the (expanded) input path. -/
def mainOutput (env : Env) (args : Args) : Str :=
  match args.output with
  | some o => o
  | none => deriveOutput (expanduser env args.input)

/-- Outcome of one process run: exit status, the ordered trace of observable
side effects, and whether the temp raster file exists at process exit. -/
structure RunResult where
  exitCode : Nat
  events : List Event
  tmpPresent : Bool
deriving DecidableEq, Repr

/-- Lines 114-177, `main` (argv excludes the program name): no arguments
prints help and exits 0; a parse failure exits 2 (help exits 0); opacity
outside [0,100] is `parser.error` — `SystemExit(2)`; then the expanded
input path and the selected logo asset are probed (`exit 1` if missing),
the output path is fixed, dependencies are probed (`exit 1` if absent)
and `add_logo` runs; falling off the end of `main` exits 0. -/
def runMain (env : Env) (argv : List Str) : RunResult :=
  if argv = [] then ⟨0, [], false⟩
  else
    match parseArgs argv with
    | .error .help => ⟨0, [], false⟩
    | .error .err => ⟨2, [], false⟩
    | .ok args =>
      if args.opacity < 0 ∨ 100 < args.opacity then ⟨2, [], false⟩
      else
        let input := expanduser env args.input
        if ¬ env.fileExists input then ⟨1, [.checkExists input], false⟩
        else
          let logoSvg := LOGOS env.scriptDir args.logo
          if ¬ env.fileExists logoSvg then
            ⟨1, [.checkExists input, .checkExists logoSvg], false⟩
          else
            let output := mainOutput env args
            match check_dependencies env with
            | (none, ev) => ⟨1, [.checkExists input, .checkExists logoSvg] ++ ev, false⟩
            | (some cmd, ev) =>
              let r := add_logo env input output logoSvg cmd args.opacity
              ⟨r.1.getD 0, ([.checkExists input, .checkExists logoSvg] ++ ev) ++ r.2.1,
               r.2.2⟩

/-! ## Helper lemmas -/

theorem afterLast_eq_none {c : Char} : ∀ {l : Str}, c ∉ l → afterLast c l = none := by
  intro l
  induction l with
  | nil => intro _; rfl
  | cons x xs ih =>
    intro h
    have hx : ¬ x = c := fun hc => h (hc ▸ List.mem_cons_self x xs)
    have hxs : c ∉ xs := fun hc => h (List.mem_cons_of_mem x hc)
    simp [afterLast, ih hxs, hx]

theorem afterLast_append {c : Char} (xs : Str) {ys : Str} (h : c ∉ ys) :
    afterLast c (xs ++ c :: ys) = some (xs, ys) := by
  induction xs with
  | nil => simp [afterLast, afterLast_eq_none h]
  | cons x xs ih => simp [afterLast, ih]

theorem getLast?_ne_of_not_mem {c : Char} :
    ∀ {l : Str}, l ≠ [] → c ∉ l → l.getLast? ≠ some c := by
  intro l
  induction l with
  | nil => intro h; exact absurd rfl h
  | cons x xs ih =>
    intro _ h
    cases xs with
    | nil =>
      simp only [List.getLast?_singleton]
      intro hc
      exact h (by simp at hc; simp [hc])
    | cons y ys =>
      rw [List.getLast?_cons_cons]
      exact ih (by simp) (fun hc => h (List.mem_cons_of_mem x hc))

theorem rstrip_eq_self {c : Char} {l : Str} (h : l.getLast? ≠ some c) :
    rstrip c l = l := by
  unfold rstrip
  match hrev : l.reverse with
  | [] => simp [List.reverse_eq_nil_iff.mp hrev]
  | y :: ys =>
    have hl : l = ys.reverse ++ [y] := by
      rw [← List.reverse_reverse l, hrev, List.reverse_cons]
    have hy : l.getLast? = some y := by rw [hl, List.getLast?_concat]
    have hyc : ¬ y = c := fun hc => h (hc ▸ hy)
    rw [List.dropWhile_cons, if_neg (by simpa using hyc), ← hrev, List.reverse_reverse]

theorem logo_size_natCast (w : ℕ) : logo_size (w : Int) = ⌊(w : ℚ) * (10 / 100)⌋ := by
  have h1 : (w : ℚ) * (10 / 100) = ((w : ℤ) : ℚ) / ((10 : ℕ) : ℚ) := by
    push_cast; ring
  rw [h1, Rat.floor_intCast_div_natCast]
  unfold logo_size pyTruncDivNat
  rw [if_pos (Int.natCast_nonneg w), Int.toNat_natCast]
  push_cast
  rfl

theorem margin_natCast (w : ℕ) : margin (w : Int) = ⌊(w : ℚ) * (2 / 100)⌋ := by
  have h1 : (w : ℚ) * (2 / 100) = ((w : ℤ) : ℚ) / ((50 : ℕ) : ℚ) := by
    push_cast; ring
  rw [h1, Rat.floor_intCast_div_natCast]
  unfold margin pyTruncDivNat
  rw [if_pos (Int.natCast_nonneg w), Int.toNat_natCast]
  push_cast
  rfl

theorem add_logo_tmpPresent (env : Env) (input output logoSvg magickCmd : Str)
    (opacity : Int) :
    (add_logo env input output logoSvg magickCmd opacity).2.2 = false := by
  unfold add_logo
  rcases hgd : get_image_dimensions env input magickCmd with ⟨r, ev⟩
  cases r with
  | error c => simp
  | ok wh => simp [runFinally, add_logo_try]

theorem isOptionLike_false_of_head {p : Str} (h : p.head? ≠ some '-') :
    isOptionLike p = false := by
  cases p with
  | nil => rfl
  | cons c cs =>
    have hc : ¬ c = '-' := fun hcc => h (by simp [hcc])
    simp [isOptionLike, hc]

theorem get_dims_cases (env : Env) (p m : Str) :
    get_image_dimensions env p m = (.error 1, [.identify p]) ∨
    ∃ wh, get_image_dimensions env p m = (.ok wh, [.identify p]) := by
  cases hio : env.identifyOut p with
  | none => exact .inl (by unfold get_image_dimensions; rw [hio])
  | some out =>
    cases hpd : parseDims out with
    | none => exact .inl (by unfold get_image_dimensions; rw [hio]; simp [hpd])
    | some wh =>
      exact .inr ⟨wh, by unfold get_image_dimensions; rw [hio]; simp [hpd]⟩

/-! ## Claim theorems -/

/-- C1: for every image width `W` and every opacity, the geometry used by
`add_logo` is `logo_size = ⌊W * 0.10⌋` and `margin = ⌊W * 0.02⌋`: the sizes
appearing in the delegated rasterize/composite commands depend only on the
width parsed from the dimension query — the opacity, the image height and
every other parameter occur as free variables on the left and are absent
from the geometry on the right. -/
theorem C1_geometry (env : Env) (input output logoSvg magickCmd : Str)
    (opacity : Int) (w : ℕ) (h : Int) (out : Str)
    (hid : env.identifyOut input = some out)
    (hparse : parseDims out = some ((w : Int), h))
    (hrast : env.rasterizeRC = 0) :
    (add_logo env input output logoSvg magickCmd opacity).2.1 =
      [Event.identify input,
       Event.rasterize logoSvg (⌊(w : ℚ) * (10 / 100)⌋) opacity env.tmpName,
       Event.composite input env.tmpName (⌊(w : ℚ) * (2 / 100)⌋) output]
    ∧ logo_size (w : Int) = ⌊(w : ℚ) * (10 / 100)⌋
    ∧ margin (w : Int) = ⌊(w : ℚ) * (2 / 100)⌋ := by
  refine ⟨?_, logo_size_natCast w, margin_natCast w⟩
  have hgd : get_image_dimensions env input magickCmd =
      (.ok ((w : Int), h), [.identify input]) := by
    unfold get_image_dimensions
    rw [hid]
    simp [hparse]
  unfold add_logo
  rw [hgd, ← logo_size_natCast, ← margin_natCast]
  simp only [add_logo_try, runFinally, hrast]
  split
  · simp_all
  · split <;> rfl

/-- Baseline environment for concrete witnesses: every file exists, `magick`
is installed, the dimension query reports a 1000×800 image, both delegated
commands succeed. -/
def envBase : Env :=
  { scriptDir := "/app".toList, home := "/home/u".toList, userHomes := [],
    fileExists := fun _ => true, hasMagick := true, hasConvert := false,
    identifyOut := fun _ => some ("1000 800".toList),
    rasterizeRC := 0, compositeRC := 0, tmpName := "/tmp/t.png".toList }

theorem C1_geometry_witness :
    (add_logo envBase ("photo.png".toList) ("out.png".toList)
      ("/app/vector/logo.svg".toList) ("magick".toList) 70).2.1 =
      [Event.identify ("photo.png".toList),
       Event.rasterize ("/app/vector/logo.svg".toList) 100 70 ("/tmp/t.png".toList),
       Event.composite ("photo.png".toList) ("/tmp/t.png".toList) 20 ("out.png".toList)] := by
  have h := C1_geometry envBase ("photo.png".toList) ("out.png".toList)
    ("/app/vector/logo.svg".toList) ("magick".toList) 70 1000 800 ("1000 800".toList)
    (by decide) (by decide) (by decide)
  have h10 : (⌊((1000 : ℕ) : ℚ) * (10 / 100)⌋ : ℤ) = 100 := by norm_num
  have h2 : (⌊((1000 : ℕ) : ℚ) * (2 / 100)⌋ : ℤ) = 20 := by norm_num
  rw [h.1, h10, h2]
  rfl

/-- C3: any parsed `--opacity` value strictly below 0 or strictly above 100
is rejected by `parser.error` before anything else happens: the run ends
(with argparse's usage-error status 2) with an empty trace — in particular
no dependency probe, dimension query, rasterize or composite command, and
not even a filesystem probe, was issued. -/
theorem C3_opacity_rejected_early (env : Env) (argv : List Str) (args : Args)
    (hne : argv ≠ []) (hp : parseArgs argv = .ok args)
    (hop : args.opacity < 0 ∨ 100 < args.opacity) :
    runMain env argv = ⟨2, [], false⟩ := by
  unfold runMain
  rw [if_neg hne]
  simp only [hp]
  rw [if_pos hop]

theorem C3_opacity_rejected_early_witness :
    runMain envBase ["photo.png".toList, "--opacity".toList, "150".toList] =
      ⟨2, [], false⟩ :=
  C3_opacity_rejected_early envBase _ ⟨"photo.png".toList, .logo, 150, none⟩
    (by decide) (by decide) (by decide)

/-- C4: when the (tilde-expanded) input path names no existing file, the run
ends with exit status 1 and its trace holds the single filesystem probe of
that path — no delegated external-tool command (not even the `which`
dependency probe) is in the trace. -/
theorem C4_missing_input (env : Env) (argv : List Str) (args : Args)
    (hne : argv ≠ []) (hp : parseArgs argv = .ok args)
    (h0 : 0 ≤ args.opacity) (h100 : args.opacity ≤ 100)
    (hmiss : env.fileExists (expanduser env args.input) = false) :
    runMain env argv = ⟨1, [.checkExists (expanduser env args.input)], false⟩
    ∧ (runMain env argv).events.filter Event.isTool = [] := by
  have hop : ¬ (args.opacity < 0 ∨ 100 < args.opacity) := by omega
  have h1 : runMain env argv =
      ⟨1, [.checkExists (expanduser env args.input)], false⟩ := by
    unfold runMain
    rw [if_neg hne]
    simp only [hp]
    rw [if_neg hop]
    simp [hmiss]
  exact ⟨h1, by rw [h1]; rfl⟩

theorem C4_missing_input_witness :
    runMain { envBase with fileExists := fun _ => false } ["photo.png".toList] =
      ⟨1, [.checkExists ("photo.png".toList)], false⟩ := by
  have h := C4_missing_input { envBase with fileExists := fun _ => false }
    ["photo.png".toList] ⟨"photo.png".toList, .logo, 70, none⟩
    (by decide) (by decide) (by decide) (by decide) (by decide)
  exact h.1

/-- C5: on every run — success, delegated-tool failure, `sys.exit`, or the
uncaught parse exception — the temporary raster file does not exist when the
process exits: the `finally` clause unlinks it on every exit path of the
`try` body, and every earlier exit happens before it is created. -/
theorem C5_temp_file_deleted (env : Env) (argv : List Str) :
    (runMain env argv).tmpPresent = false := by
  unfold runMain
  repeat' split
  all_goals simp [add_logo_tmpPresent, apply_ite RunResult.tmpPresent]

/-- C8: the dimension reader yields `sys.exit`-status 1 whenever the
`identify` query fails or whenever its stdout does not parse into exactly
two integers; otherwise it returns the parsed `(width, height)` pair.  In
all three cases the only delegated command is the single dimension query,
and the failure status propagates as `add_logo`'s (hence the process's)
exit status. -/
theorem C8_dimension_reader (env : Env) (p cmd : Str) :
    (env.identifyOut p = none →
      get_image_dimensions env p cmd = (.error 1, [.identify p]))
    ∧ (∀ out, env.identifyOut p = some out →
        (parseDims out = none →
          get_image_dimensions env p cmd = (.error 1, [.identify p]))
        ∧ (∀ w h, parseDims out = some (w, h) →
            get_image_dimensions env p cmd = (.ok (w, h), [.identify p])))
    ∧ (∀ output logoSvg op, (get_image_dimensions env p cmd).1 = .error 1 →
        (add_logo env p output logoSvg cmd op).1 = some 1) := by
  refine ⟨?_, ?_, ?_⟩
  · intro hio
    unfold get_image_dimensions
    rw [hio]
  · intro out hio
    constructor
    · intro hpd
      unfold get_image_dimensions
      rw [hio]
      simp [hpd]
    · intro w h hpd
      unfold get_image_dimensions
      rw [hio]
      simp [hpd]
  · intro output logoSvg op herr
    unfold add_logo
    rcases hgd : get_image_dimensions env p cmd with ⟨r, ev⟩
    cases r with
    | error c =>
      have : c = 1 := by rw [hgd] at herr; simpa using herr
      simp [this]
    | ok wh => rw [hgd] at herr; simp at herr

theorem C8_dimension_reader_witness :
    get_image_dimensions envBase ("photo.png".toList) ("magick".toList) =
      (.ok ((1000 : Int), (800 : Int)), [.identify ("photo.png".toList)]) :=
  ((C8_dimension_reader envBase ("photo.png".toList) ("magick".toList)).2.1
    ("1000 800".toList) (by decide)).2 1000 800 (by decide)

theorem check_dependencies_events (env : Env) :
    (check_dependencies env).2 = [.whichMagick, .whichConvert] := by
  unfold check_dependencies
  split <;> rfl

theorem add_logo_rastFail (env : Env) (i o l m : Str) (op : Int)
    (hr : env.rasterizeRC ≠ 0) :
    (add_logo env i o l m op).1 = some 1
    ∧ (add_logo env i o l m op).2.1.filter Event.isComposite = [] := by
  rcases get_dims_cases env i m with hD | ⟨wh, hD⟩ <;>
    unfold add_logo <;> rw [hD] <;>
    simp [add_logo_try, runFinally, hr, Event.isComposite]

/-- Exhaustive characterization of `runMain`: each run falls in exactly one
of the eight terminal branches of `main`. -/
theorem runMain_shape (env : Env) (argv : List Str) :
    runMain env argv = ⟨0, [], false⟩
    ∨ runMain env argv = ⟨2, [], false⟩
    ∨ (∃ p, runMain env argv = ⟨1, [.checkExists p], false⟩)
    ∨ (∃ p q, runMain env argv = ⟨1, [.checkExists p, .checkExists q], false⟩)
    ∨ (∃ p q, runMain env argv =
        ⟨1, [.checkExists p, .checkExists q, .whichMagick, .whichConvert], false⟩)
    ∨ (∃ p q o cmd op, runMain env argv =
        ⟨(add_logo env p o (LOGOS env.scriptDir q) cmd op).1.getD 0,
         [.checkExists p, .checkExists (LOGOS env.scriptDir q), .whichMagick,
          .whichConvert] ++ (add_logo env p o (LOGOS env.scriptDir q) cmd op).2.1,
         (add_logo env p o (LOGOS env.scriptDir q) cmd op).2.2⟩) := by
  by_cases hne : argv = []
  · exact .inl (by unfold runMain; rw [if_pos hne])
  cases hp : parseArgs argv with
  | error e =>
    cases e with
    | help => exact .inl (by unfold runMain; rw [if_neg hne]; simp only [hp])
    | err => exact .inr (.inl (by unfold runMain; rw [if_neg hne]; simp only [hp]))
  | ok args =>
    by_cases hop : args.opacity < 0 ∨ 100 < args.opacity
    · exact .inr (.inl (by
        unfold runMain; rw [if_neg hne]; simp only [hp]; rw [if_pos hop]))
    by_cases hfe : env.fileExists (expanduser env args.input) = true
    · by_cases hlogo : env.fileExists (LOGOS env.scriptDir args.logo) = true
      · rcases hcd : check_dependencies env with ⟨copt, ev⟩
        have hev : ev = [.whichMagick, .whichConvert] := by
          have h := check_dependencies_events env
          rw [hcd] at h
          exact h
        subst hev
        cases copt with
        | none =>
          refine .inr (.inr (.inr (.inr (.inl
            ⟨expanduser env args.input, LOGOS env.scriptDir args.logo, ?_⟩))))
          unfold runMain
          rw [if_neg hne]
          simp only [hp]
          rw [if_neg hop]
          simp [hfe, hlogo, hcd]
        | some cmd =>
          refine .inr (.inr (.inr (.inr (.inr
            ⟨expanduser env args.input, args.logo, mainOutput env args,
             cmd, args.opacity, ?_⟩))))
          unfold runMain
          rw [if_neg hne]
          simp only [hp]
          rw [if_neg hop]
          simp [hfe, hlogo, hcd]
      · refine .inr (.inr (.inr (.inl
          ⟨expanduser env args.input, LOGOS env.scriptDir args.logo, ?_⟩)))
        unfold runMain
        rw [if_neg hne]
        simp only [hp]
        rw [if_neg hop]
        simp [hfe, hlogo]
    · refine .inr (.inr (.inl ⟨expanduser env args.input, ?_⟩))
      unfold runMain
      rw [if_neg hne]
      simp only [hp]
      rw [if_neg hop]
      simp [hfe]

/-- C7: the composite command — the only writer of the output path — never
runs when the rasterize command exits non-zero: under `rasterizeRC ≠ 0`
no trace of any run contains a composite event, and any run whose trace
shows the rasterize command was attempted exits with status 1. -/
theorem C7_composite_after_rasterize (env : Env) (argv : List Str)
    (hr : env.rasterizeRC ≠ 0) :
    (runMain env argv).events.filter Event.isComposite = []
    ∧ ((∃ e ∈ (runMain env argv).events, Event.isRasterize e = true) →
        (runMain env argv).exitCode = 1) := by
  rcases runMain_shape env argv with hR | hR | ⟨p, hR⟩ | ⟨p, q, hR⟩ | ⟨p, q, hR⟩ |
    ⟨p, q, o, cmd, op, hR⟩ <;> rw [hR]
  · exact ⟨rfl, fun hex => by simp at hex⟩
  · exact ⟨rfl, fun hex => by simp at hex⟩
  · exact ⟨rfl, fun hex => by simp [Event.isRasterize] at hex⟩
  · exact ⟨rfl, fun hex => by simp [Event.isRasterize] at hex⟩
  · exact ⟨rfl, fun hex => by simp [Event.isRasterize] at hex⟩
  · have hAL := add_logo_rastFail env p o (LOGOS env.scriptDir q) cmd op hr
    constructor
    · simp [List.filter_append, hAL.2, Event.isComposite]
    · intro _
      simp [hAL.1]

theorem C7_composite_after_rasterize_witness :
    (runMain { envBase with rasterizeRC := 1 }
        ["photo.png".toList]).events.filter Event.isComposite = []
    ∧ (runMain { envBase with rasterizeRC := 1 } ["photo.png".toList]).exitCode = 1 := by
  have h := C7_composite_after_rasterize { envBase with rasterizeRC := 1 }
    ["photo.png".toList] (by decide)
  exact ⟨h.1, h.2 (by decide)⟩

/-- C10: any `--logo` value outside the four-name catalog makes argparse
reject the invocation with usage-error status 2, with an empty trace: no
filesystem probe and no external-tool command happens.  (A value that
argparse reads as a further option string fails the same way, as `--logo`
then has no argument.) -/
theorem C10_invalid_logo (env : Env) (p v : Str) (hp1 : p ≠ [])
    (hp2 : p.head? ≠ some '-') (hv : logoOfName v = none) :
    runMain env [p, "--logo".toList, v] = ⟨2, [], false⟩ := by
  have hOL : isOptionLike p = false := isOptionLike_false_of_head hp2
  have t1 : ¬ p = "-h".toList := fun he => hp2 (by rw [he]; decide)
  have t2 : ¬ p = "--help".toList := fun he => hp2 (by rw [he]; decide)
  have t3 : ¬ p = "--logo".toList := fun he => hp2 (by rw [he]; decide)
  have t4 : ¬ p = "-l".toList := fun he => hp2 (by rw [he]; decide)
  have t5 : ¬ p = "--opacity".toList := fun he => hp2 (by rw [he]; decide)
  have t6 : ¬ p = "--output".toList := fun he => hp2 (by rw [he]; decide)
  have t7 : ¬ p = "-o".toList := fun he => hp2 (by rw [he]; decide)
  have hparse : parseArgs [p, "--logo".toList, v] = .error .err := by
    unfold parseArgs parseTokens
    simp only [t1, t2, t3, t4, t5, t6, t7, hOL, or_self, or_false, false_or,
      if_false, Bool.false_eq_true, if_neg, ite_false, initRaw]
    by_cases hov : isOptionLike v = true
    · simp [parseTokens, hov]
    · simp [parseTokens, hov, hv]
  unfold runMain
  rw [if_neg (by simp)]
  simp only [hparse]

theorem C10_invalid_logo_witness :
    runMain envBase ["photo.png".toList, "--logo".toList, "banner".toList] =
      ⟨2, [], false⟩ :=
  C10_invalid_logo envBase ("photo.png".toList) ("banner".toList)
    (by decide) (by decide) (by decide)

theorem deriveOutput_with_dir (dir base ext : Str) (h1 : dir ≠ []) (h2 : dir ≠ ['.'])
    (h3 : dir.getLast? ≠ some '/') (h4 : base ≠ []) (h5 : '/' ∉ base)
    (h6 : ext ≠ []) (h7 : '.' ∉ ext) (h8 : '/' ∉ ext) :
    deriveOutput (dir ++ '/' :: (base ++ '.' :: ext)) =
      dir ++ '/' :: (base ++ "-branded".toList ++ '.' :: ext) := by
  have hsplit : dir ++ '/' :: (base ++ '.' :: ext) =
      (dir ++ '/' :: (base ++ ['.'])) ++ ext := by simp
  have hlast : (dir ++ '/' :: (base ++ '.' :: ext)).getLast? ≠ some '/' := by
    rw [hsplit, List.getLast?_append_of_ne_nil _ h6]
    exact getLast?_ne_of_not_mem h6 h8
  have hnm : '/' ∉ base ++ '.' :: ext := by
    intro hmem
    rcases List.mem_append.mp hmem with hm | hm
    · exact h5 hm
    · rcases List.mem_cons.mp hm with hm2 | hm2
      · exact absurd hm2 (by decide)
      · exact h8 hm2
  have hAL : afterLast '/' (dir ++ '/' :: (base ++ '.' :: ext)) =
      some (dir, base ++ '.' :: ext) := afterLast_append dir hnm
  have hALd : afterLast '.' (base ++ '.' :: ext) = some (base, ext) :=
    afterLast_append base h7
  have hne : dir ++ '/' :: (base ++ '.' :: ext) ≠ [] := by simp
  simp only [deriveOutput, pathParentName, stemSuffix, joinRel,
    rstrip_eq_self hlast, rstrip_eq_self h3, hAL, hALd, if_neg hne]
  simp [h1, h2, h3, h4, h6]

theorem deriveOutput_no_dir (base ext : Str) (h4 : base ≠ []) (h5 : '/' ∉ base)
    (h6 : ext ≠ []) (h7 : '.' ∉ ext) (h8 : '/' ∉ ext) :
    deriveOutput (base ++ '.' :: ext) = base ++ "-branded".toList ++ '.' :: ext := by
  have hnm : '/' ∉ base ++ '.' :: ext := by
    intro hmem
    rcases List.mem_append.mp hmem with hm | hm
    · exact h5 hm
    · rcases List.mem_cons.mp hm with hm2 | hm2
      · exact absurd hm2 (by decide)
      · exact h8 hm2
  have hlast : (base ++ '.' :: ext).getLast? ≠ some '/' := by
    rw [show base ++ '.' :: ext = (base ++ ['.']) ++ ext by simp,
      List.getLast?_append_of_ne_nil _ h6]
    exact getLast?_ne_of_not_mem h6 h8
  have hAL : afterLast '/' (base ++ '.' :: ext) = none := afterLast_eq_none hnm
  have hALd : afterLast '.' (base ++ '.' :: ext) = some (base, ext) :=
    afterLast_append base h7
  have hne : base ++ '.' :: ext ≠ [] := by simp
  simp only [deriveOutput, pathParentName, stemSuffix, joinRel,
    rstrip_eq_self hlast, hAL, hALd, if_neg hne]
  simp [h4, h6]

/-- C6: when `--output` is absent, the default output path keeps the input's
directory and extension and appends `-branded` to the base name — for a path
`dir/base.ext` it is `dir/base-branded.ext`, and for a bare `base.ext` it is
`base-branded.ext`; in the 1000×800-default scenario the geometry is
`logo_size = 100` and `margin = 20`. -/
theorem C6_default_output :
    (∀ dir base ext : Str, dir ≠ [] → dir ≠ ['.'] → dir.getLast? ≠ some '/' →
      base ≠ [] → '/' ∉ base → ext ≠ [] → '.' ∉ ext → '/' ∉ ext →
      deriveOutput (dir ++ '/' :: (base ++ '.' :: ext)) =
        dir ++ '/' :: (base ++ "-branded".toList ++ '.' :: ext))
    ∧ (∀ base ext : Str, base ≠ [] → '/' ∉ base → ext ≠ [] → '.' ∉ ext → '/' ∉ ext →
      deriveOutput (base ++ '.' :: ext) = base ++ "-branded".toList ++ '.' :: ext)
    ∧ logo_size 1000 = 100 ∧ margin 1000 = 20 :=
  ⟨deriveOutput_with_dir, deriveOutput_no_dir, by decide, by decide⟩

theorem C6_default_output_witness :
    deriveOutput ("pics/photo.png".toList) = "pics/photo-branded.png".toList := by
  have h := C6_default_output.1 ("pics".toList) ("photo".toList) ("png".toList)
    (by decide) (by decide) (by decide) (by decide) (by decide) (by decide)
    (by decide) (by decide)
  have e1 : "pics/photo.png".toList =
      "pics".toList ++ '/' :: ("photo".toList ++ '.' :: "png".toList) := by decide
  have e2 : "pics/photo-branded.png".toList =
      "pics".toList ++ '/' ::
        ("photo".toList ++ "-branded".toList ++ '.' :: "png".toList) := by decide
  rw [e1, e2]
  exact h

theorem expanduser_tilde (env : Env) (r : Str)
    (hh1 : env.home ≠ []) (hh2 : env.home.getLast? ≠ some '/')
    (hr : r = [] ∨ r.head? = some '/') :
    expanduser env ('~' :: r) = env.home ++ r := by
  rcases hr with hr | hr
  · subst hr
    simp [expanduser, rstrip_eq_self hh2, hh1]
  · cases r with
    | nil => simp at hr
    | cons c cs =>
      have hc : c = '/' := by simpa using hr
      subst hc
      simp [expanduser, List.takeWhile, List.dropWhile, rstrip_eq_self hh2, hh1]

theorem runMain_head (env : Env) (argv : List Str) (args : Args)
    (hne : argv ≠ []) (hp : parseArgs argv = .ok args)
    (hop : ¬ (args.opacity < 0 ∨ 100 < args.opacity)) :
    (runMain env argv).events.head? =
      some (.checkExists (expanduser env args.input)) := by
  by_cases hfe : env.fileExists (expanduser env args.input) = true
  · by_cases hlogo : env.fileExists (LOGOS env.scriptDir args.logo) = true
    · rcases hcd : check_dependencies env with ⟨copt, ev⟩
      cases copt <;>
        (unfold runMain; rw [if_neg hne]; simp only [hp]; rw [if_neg hop];
         simp [hfe, hlogo, hcd])
    · unfold runMain
      rw [if_neg hne]
      simp only [hp]
      rw [if_neg hop]
      simp [hfe, hlogo]
  · unfold runMain
    rw [if_neg hne]
    simp only [hp]
    rw [if_neg hop]
    simp [hfe]

/-- C9 (amended): an input path argument that is exactly `~` or begins with
`~/` is expanded to the current user's home directory before anything else
observable happens: the first (and only) filesystem probe of the run checks
the expanded path, and when `--output` is absent the composite command's
output argument is derived from the expanded path.  (Arguments of the form
`~name...` are instead looked up as user `name` and left unchanged when
that lookup fails, as the counterexample shows.) -/
theorem C9_expanduser_amended (env : Env) (r : Str)
    (hh1 : env.home ≠ []) (hh2 : env.home.getLast? ≠ some '/')
    (hr : r = [] ∨ r.head? = some '/') :
    expanduser env ('~' :: r) = env.home ++ r
    ∧ (∀ argv args, argv ≠ [] → parseArgs argv = .ok args →
        args.input = '~' :: r → ¬ (args.opacity < 0 ∨ 100 < args.opacity) →
        (runMain env argv).events.head? = some (.checkExists (env.home ++ r)))
    ∧ (∀ argv args cmd w h outS, argv ≠ [] → parseArgs argv = .ok args →
        args.input = '~' :: r → ¬ (args.opacity < 0 ∨ 100 < args.opacity) →
        args.output = none →
        env.fileExists (env.home ++ r) = true →
        env.fileExists (LOGOS env.scriptDir args.logo) = true →
        check_dependencies env = (some cmd, [.whichMagick, .whichConvert]) →
        env.rasterizeRC = 0 →
        env.identifyOut (env.home ++ r) = some outS →
        parseDims outS = some (w, h) →
        Event.composite (env.home ++ r) env.tmpName (margin w)
          (deriveOutput (env.home ++ r)) ∈ (runMain env argv).events) := by
  have hexp : expanduser env ('~' :: r) = env.home ++ r :=
    expanduser_tilde env r hh1 hh2 hr
  refine ⟨hexp, ?_, ?_⟩
  · intro argv args hne hp hin hop
    have h := runMain_head env argv args hne hp hop
    rw [hin, hexp] at h
    exact h
  · intro argv args cmd w h outS hne hp hin hop hout hfe hlogo hcd hr0 hio hdm
    have hgd : get_image_dimensions env (env.home ++ r) cmd =
        (.ok ((w : Int), h), [.identify (env.home ++ r)]) := by
      unfold get_image_dimensions
      rw [hio]
      simp [hdm]
    have hal : (add_logo env (env.home ++ r) (deriveOutput (env.home ++ r))
        (LOGOS env.scriptDir args.logo) cmd args.opacity).2.1 =
        [.identify (env.home ++ r),
         .rasterize (LOGOS env.scriptDir args.logo) (logo_size w) args.opacity
           env.tmpName,
         .composite (env.home ++ r) env.tmpName (margin w)
           (deriveOutput (env.home ++ r))] := by
      unfold add_logo
      rw [hgd]
      simp only [add_logo_try, runFinally, hr0]
      split
      · simp_all
      · split <;> rfl
    unfold runMain
    rw [if_neg hne]
    simp only [hp]
    rw [if_neg hop]
    simp only [mainOutput, hout]
    rw [hin, hexp]
    simp only [hcd, hfe, hlogo]
    simp [hal]

theorem C9_expanduser_amended_witness :
    expanduser envBase ("~/p.png".toList) = "/home/u/p.png".toList
    ∧ Event.composite ("/home/u/p.png".toList) ("/tmp/t.png".toList) 20
        ("/home/u/p-branded.png".toList) ∈
        (runMain envBase ["~/p.png".toList]).events := by
  have h := C9_expanduser_amended envBase ("/p.png".toList)
    (by decide) (by decide) (.inr (by decide))
  refine ⟨h.1, ?_⟩
  have h2 := h.2.2 ["~/p.png".toList] ⟨"~/p.png".toList, .logo, 70, none⟩
    ("magick".toList) 1000 800 ("1000 800".toList)
    (by decide) (by decide) (by decide) (by decide) (by decide) (by decide)
    (by decide) (by decide) (by decide) (by decide) (by decide)
  have e1 : margin 1000 = 20 := by decide
  have e2 : deriveOutput ("/home/u/p.png".toList) = "/home/u/p-branded.png".toList := by
    decide
  have e3 : envBase.home ++ "/p.png".toList = "/home/u/p.png".toList := by decide
  rw [e3, e1, e2] at h2
  exact h2

/-- C9 counterexample: for the input argument `~bob/p.png`, which begins with
`~`, the program does NOT expand it to the current user's home — with no
user `bob` in the user database `os.path.expanduser` returns the argument
unchanged, and the existence check probes the literal `~bob/p.png`, not a
path under `/home/u`. -/
theorem C9_claim_counterexample :
    ("~bob/p.png".toList).head? = some '~'
    ∧ expanduser envBase ("~bob/p.png".toList) = "~bob/p.png".toList
    ∧ envBase.home = "/home/u".toList
    ∧ (runMain envBase ["~bob/p.png".toList]).events.head? =
        some (.checkExists ("~bob/p.png".toList))
    ∧ ¬ (runMain envBase ["~bob/p.png".toList]).events.head? =
        some (.checkExists (envBase.home ++ ("~bob/p.png".toList).tail)) := by
  decide

/-- C2 counterexample: the claim says a validation failure exits with
status 1, but an out-of-range `--opacity 150` goes through
`parser.error`, which raises `SystemExit(2)`: the run exits 2, not 1. -/
theorem C2_claim_counterexample :
    (runMain envBase ["photo.png".toList, "--opacity".toList, "150".toList]).exitCode = 2
    ∧ ¬ (runMain envBase
          ["photo.png".toList, "--opacity".toList, "150".toList]).exitCode = 1 := by
  decide

/-- C2 (amended): exit status 0 on success and on the help paths; status 2 on
argparse usage errors and on out-of-range `--opacity` (both go through
argparse's error handler); status 1 on missing input file, missing logo
asset, missing dependency, and on every delegated-tool failure (failed or
unparseable dimension query, failed rasterize, failed composite). -/
theorem C2_exit_codes (env : Env) (argv : List Str) (args : Args)
    (hne : argv ≠ []) (hp : parseArgs argv = .ok args) :
    (runMain env []).exitCode = 0
    ∧ (∀ argv2, argv2 ≠ [] → parseArgs argv2 = .error .help →
        (runMain env argv2).exitCode = 0)
    ∧ (∀ argv2, argv2 ≠ [] → parseArgs argv2 = .error .err →
        (runMain env argv2).exitCode = 2)
    ∧ ((args.opacity < 0 ∨ 100 < args.opacity) → (runMain env argv).exitCode = 2)
    ∧ (¬ (args.opacity < 0 ∨ 100 < args.opacity) →
        (env.fileExists (expanduser env args.input) = false →
          (runMain env argv).exitCode = 1)
        ∧ (env.fileExists (expanduser env args.input) = true →
          (env.fileExists (LOGOS env.scriptDir args.logo) = false →
            (runMain env argv).exitCode = 1)
          ∧ (env.fileExists (LOGOS env.scriptDir args.logo) = true →
            ((check_dependencies env).1 = none → (runMain env argv).exitCode = 1)
            ∧ (∀ cmd, (check_dependencies env).1 = some cmd →
                ((add_logo env (expanduser env args.input) (mainOutput env args)
                    (LOGOS env.scriptDir args.logo) cmd args.opacity).1 = none →
                  (runMain env argv).exitCode = 0)
                ∧ (∀ c, (add_logo env (expanduser env args.input)
                    (mainOutput env args) (LOGOS env.scriptDir args.logo) cmd
                    args.opacity).1 = some c →
                  (runMain env argv).exitCode = c)))))
    ∧ (∀ i o l m op, env.identifyOut i = none → (add_logo env i o l m op).1 = some 1)
    ∧ (∀ i o l m op outS, env.identifyOut i = some outS → parseDims outS = none →
        (add_logo env i o l m op).1 = some 1)
    ∧ (∀ i o l m op outS w h, env.identifyOut i = some outS →
        parseDims outS = some (w, h) → env.rasterizeRC ≠ 0 →
        (add_logo env i o l m op).1 = some 1)
    ∧ (∀ i o l m op outS w h, env.identifyOut i = some outS →
        parseDims outS = some (w, h) → env.rasterizeRC = 0 → env.compositeRC ≠ 0 →
        (add_logo env i o l m op).1 = some 1)
    ∧ (∀ i o l m op outS w h, env.identifyOut i = some outS →
        parseDims outS = some (w, h) → env.rasterizeRC = 0 → env.compositeRC = 0 →
        (add_logo env i o l m op).1 = none) := by
  refine ⟨by unfold runMain; rfl, ?_, ?_, ?_, ?_, ?_, ?_, ?_, ?_, ?_⟩
  · intro argv2 hne2 hp2
    unfold runMain
    rw [if_neg hne2]
    simp only [hp2]
  · intro argv2 hne2 hp2
    unfold runMain
    rw [if_neg hne2]
    simp only [hp2]
  · intro hop
    unfold runMain
    rw [if_neg hne]
    simp only [hp]
    rw [if_pos hop]
  · intro hop
    constructor
    · intro hfe
      unfold runMain
      rw [if_neg hne]
      simp only [hp]
      rw [if_neg hop]
      simp [hfe]
    · intro hfe
      constructor
      · intro hlogo
        unfold runMain
        rw [if_neg hne]
        simp only [hp]
        rw [if_neg hop]
        simp [hfe, hlogo]
      · intro hlogo
        constructor
        · intro hdeps
          rcases hcd : check_dependencies env with ⟨copt, ev⟩
          have hnone : copt = none := by rw [hcd] at hdeps; exact hdeps
          subst hnone
          unfold runMain
          rw [if_neg hne]
          simp only [hp]
          rw [if_neg hop]
          simp [hfe, hlogo, hcd]
        · intro cmd hdeps
          rcases hcd : check_dependencies env with ⟨copt, ev⟩
          have hsome : copt = some cmd := by rw [hcd] at hdeps; exact hdeps
          subst hsome
          constructor
          · intro hAL
            unfold runMain
            rw [if_neg hne]
            simp only [hp]
            rw [if_neg hop]
            simp [hfe, hlogo, hcd, hAL]
          · intro c hAL
            unfold runMain
            rw [if_neg hne]
            simp only [hp]
            rw [if_neg hop]
            simp [hfe, hlogo, hcd, hAL]
  · intro i o l m op hio
    have hgd : get_image_dimensions env i m = (.error 1, [.identify i]) := by
      unfold get_image_dimensions
      rw [hio]
    unfold add_logo
    rw [hgd]
  · intro i o l m op outS hio hdm
    have hgd : get_image_dimensions env i m = (.error 1, [.identify i]) := by
      unfold get_image_dimensions
      rw [hio]
      simp [hdm]
    unfold add_logo
    rw [hgd]
  · intro i o l m op outS w h hio hdm hr
    have hgd : get_image_dimensions env i m = (.ok (w, h), [.identify i]) := by
      unfold get_image_dimensions
      rw [hio]
      simp [hdm]
    unfold add_logo
    rw [hgd]
    simp [add_logo_try, runFinally, hr]
  · intro i o l m op outS w h hio hdm hr0 hc
    have hgd : get_image_dimensions env i m = (.ok (w, h), [.identify i]) := by
      unfold get_image_dimensions
      rw [hio]
      simp [hdm]
    unfold add_logo
    rw [hgd]
    simp [add_logo_try, runFinally, hr0, hc]
  · intro i o l m op outS w h hio hdm hr0 hc0
    have hgd : get_image_dimensions env i m = (.ok (w, h), [.identify i]) := by
      unfold get_image_dimensions
      rw [hio]
      simp [hdm]
    unfold add_logo
    rw [hgd]
    simp [add_logo_try, runFinally, hr0, hc0]

theorem C2_exit_codes_witness :
    (runMain envBase ["photo.png".toList]).exitCode = 0 := by
  have h := C2_exit_codes envBase ["photo.png".toList]
    ⟨"photo.png".toList, .logo, 70, none⟩ (by decide) (by decide)
  have hB := (h.2.2.2.2.1 (by decide)).2 (by decide)
  have hC := hB.2 (by decide)
  have hD := (hC.2 ("magick".toList) (by decide)).1 (by decide)
  exact hD

end Branding
